import Mathlib

/-!
Verification of the appsody/watcher CLI layer (cmd/watcher/main.go).

The file shallowly embeds the CLI program: pure string processing is
translated to Lean functions, and the channel-driven event loop, the
signal-driven shutdown and the startup-command goroutine are modelled as
explicit traces and as an interpreter over a serialized list of channel
messages, with an oracle supplying the exit status of each spawned
command.
-/

/-- Go unicode.IsSpace: reports whether the rune is a white-space
character (Latin-1 cases plus the Unicode White_Space code points). -/
def isSpace (c : Char) : Bool :=
  c = ' ' || c = '\t' || c = '\n' || c.toNat = 11 || c.toNat = 12 || c = '\r' ||
  c.toNat = 0x85 || c.toNat = 0xA0 || c.toNat = 0x1680 ||
  (0x2000 ≤ c.toNat && c.toNat ≤ 0x200A) || c.toNat = 0x2028 || c.toNat = 0x2029 ||
  c.toNat = 0x202F || c.toNat = 0x205F || c.toNat = 0x3000

/-- Go strings.TrimSpace: drop leading and trailing white space. -/
def trimSpace (s : String) : String :=
  String.mk (((s.data.dropWhile isSpace).reverse.dropWhile isSpace).reverse)

/-- Worker for fieldsFunc: walks the characters, accumulating the current
field in reverse; a separator character flushes a non-empty accumulator. -/
def fieldsFuncAux (f : Char → Bool) : List Char → List Char → List (List Char)
  | [], acc => if acc = [] then [] else [acc.reverse]
  | c :: cs, acc =>
    if f c then
      if acc = [] then fieldsFuncAux f cs []
      else acc.reverse :: fieldsFuncAux f cs []
    else fieldsFuncAux f cs (c :: acc)

/-- Go strings.FieldsFunc: split the string at runs of characters
satisfying f, returning the non-empty fields. -/
def fieldsFunc (f : Char → Bool) (s : String) : List String :=
  (fieldsFuncAux f s.data []).map String.mk

/-- Line 89 of main.go: split := strings.FieldsFunc(cmd, unicode.IsSpace). -/
def cmdSplit (cmd : String) : List String :=
  fieldsFunc isSpace cmd

theorem fieldsFuncAux_eq_nil (f : Char → Bool) :
    ∀ (cs : List Char) (acc : List Char),
      (fieldsFuncAux f cs acc = [] ↔ acc = [] ∧ ∀ c ∈ cs, f c = true) := by
  intro cs
  induction cs with
  | nil =>
      intro acc
      by_cases h : acc = [] <;> simp [fieldsFuncAux, h]
  | cons c cs ih =>
      intro acc
      by_cases hf : f c = true
      · by_cases h : acc = []
        · simp [fieldsFuncAux, hf, h, ih]
        · simp [fieldsFuncAux, hf, h]
      · have hf2 : f c = false := by
          cases hfc : f c
          · rfl
          · exact absurd hfc hf
        simp [fieldsFuncAux, hf2, ih, hf]

theorem cmdSplit_eq_nil (s : String) :
    cmdSplit s = [] ↔ ∀ c ∈ s.data, isSpace c = true := by
  simp [cmdSplit, fieldsFunc, fieldsFuncAux_eq_nil]

/-- Errors arriving on the Error channel of the watcher: the
distinguished watcher.ErrWatchedFileDeleted value, or any other error. -/
inductive WErr where
  | watchedFileDeleted
  | other (msg : String)
deriving DecidableEq

/-- One message observed by the select statement of the event-reading
goroutine (lines 119 to 152): an Event value (carrying the text of its
String method), an error from the Error channel, or the Closed channel
becoming readable. -/
inductive Msg where
  | event (desc : String)
  | error (e : WErr)
  | closed
deriving DecidableEq

/-- Standard input wired to a spawned command: the text of the event
when the pipe flag is set (line 129), the stdin of the process
otherwise (line 131). -/
inductive Stdin where
  | pipeStr (s : String)
  | osStdin
deriving DecidableEq

/-- One exec.Command invocation as configured by the CLI. -/
structure Invocation where
  name : String
  args : List String
  stdin : Stdin
deriving DecidableEq

/-- Result of c.Run() for a spawned command: ok, or an error together
with the ProcessState (none when ProcessState is nil, some b when
ProcessState.Success() returns b). -/
inductive RunRes where
  | ok
  | err (processState : Option Bool)
deriving DecidableEq

/-- Observable effects of the CLI: printing the event (line 123),
spawning a command, log.Println on a tolerated command failure
(line 137), fmt.Println of a watched-file-deleted error (line 145), and
log.Fatalln, which exits the process (lines 140 and 148). -/
inductive Eff where
  | printEvent (desc : String)
  | runCmd (inv : Invocation)
  | logPrintlnErr
  | printlnErr (e : WErr)
  | logFatal
deriving DecidableEq

/-- How the event-reading loop ends on a finite message list: it
returned after observing Closed (line 150), the process died in
log.Fatalln, or the messages ran out with the loop still blocked in
select. -/
inductive LoopExit where
  | closedReturn
  | fatal
  | pending
deriving DecidableEq

/-- Line 136 and line 204: the condition
(c.ProcessState == nil or not c.ProcessState.Success()) and keepalive
under which a failed command run is logged instead of fatal. -/
def keepaliveBranch (processState : Option Bool) (keepalive : Bool) : Bool :=
  (match processState with
   | none => true
   | some ok => !ok) && keepalive

/-- The event-reading goroutine (lines 116 to 153), as an interpreter
over a serialized list of channel messages. The oracle gives the result
of the k-th command run. Returns the effect trace and how the loop
ended. -/
def runLoop (cmd cmdName : String) (cmdArgs : List String)
    (stdinPipe keepalive : Bool) (oracle : Nat → RunRes) :
    Nat → List Msg → List Eff × LoopExit
  | _, [] => ([], LoopExit.pending)
  | _, Msg.closed :: _ => ([], LoopExit.closedReturn)
  | k, Msg.error WErr.watchedFileDeleted :: ms =>
      let r := runLoop cmd cmdName cmdArgs stdinPipe keepalive oracle k ms
      (Eff.printlnErr WErr.watchedFileDeleted :: r.1, r.2)
  | _, Msg.error (WErr.other _) :: _ => ([Eff.logFatal], LoopExit.fatal)
  | k, Msg.event d :: ms =>
      if cmd = "" then
        let r := runLoop cmd cmdName cmdArgs stdinPipe keepalive oracle k ms
        (Eff.printEvent d :: r.1, r.2)
      else
        let inv : Invocation :=
          ⟨cmdName, cmdArgs, if stdinPipe then Stdin.pipeStr d else Stdin.osStdin⟩
        match oracle k with
        | RunRes.ok =>
            let r := runLoop cmd cmdName cmdArgs stdinPipe keepalive oracle (k + 1) ms
            (Eff.printEvent d :: Eff.runCmd inv :: r.1, r.2)
        | RunRes.err ps =>
            if keepaliveBranch ps keepalive then
              let r := runLoop cmd cmdName cmdArgs stdinPipe keepalive oracle (k + 1) ms
              (Eff.printEvent d :: Eff.runCmd inv :: Eff.logPrintlnErr :: r.1, r.2)
            else
              ([Eff.printEvent d, Eff.runCmd inv, Eff.logFatal], LoopExit.fatal)

/-- Recognize a command-spawning effect. -/
def isRunEff : Eff → Bool
  | Eff.runCmd _ => true
  | _ => false

/-- Number of spawned commands in an effect trace. -/
def countRuns (effs : List Eff) : Nat :=
  (effs.filter isRunEff).length

/-- The goroutine of lines 197 to 211: when cmd is set and the startcmd
flag is set, run the command once before the watcher starts, with the
same keepalive handling as the event loop; the Bool is true when the
run ended in log.Fatalln. -/
def startCmdEffects (cmd : String) (startcmd keepalive : Bool)
    (cmdName : String) (cmdArgs : List String) (res : RunRes) : List Eff × Bool :=
  if cmd = "" then ([], false)
  else if startcmd then
    match res with
    | RunRes.ok => ([Eff.runCmd ⟨cmdName, cmdArgs, Stdin.osStdin⟩], false)
    | RunRes.err ps =>
      if keepaliveBranch ps keepalive then
        ([Eff.runCmd ⟨cmdName, cmdArgs, Stdin.osStdin⟩, Eff.logPrintlnErr], false)
      else
        ([Eff.runCmd ⟨cmdName, cmdArgs, Stdin.osStdin⟩, Eff.logFatal], true)
  else ([], false)

/-- Lines 103 to 113: walk the comma-separated entries, trim each, skip
the ones that trim to empty, call w.Ignore on the rest; the oracle says
whether a given Ignore call fails. Returns none when a failing call hit
log.Fatalln, otherwise the list of paths passed to Ignore in order. -/
def processIgnores (ignoreErr : String → Bool) : List String → Option (List String)
  | [] => some []
  | p :: ps =>
      let trimmed := trimSpace p
      if trimmed = "" then processIgnores ignoreErr ps
      else if ignoreErr trimmed then none
      else (processIgnores ignoreErr ps).map (fun r => trimmed :: r)

/-- The entries of the ignore flag that survive trimming, in order. -/
def ignoreEntries (ignore : String) : List String :=
  ((ignore.splitOn ",").map trimSpace).filter (fun t => !(t == ""))

/-- Which registration call the CLI uses for a watch root. -/
inductive AddMethod where
  | addRecursive
  | add
deriving DecidableEq

/-- Lines 156 to 166: register every file via w.AddRecursive when the
recursive flag is set and via w.Add otherwise; the oracles say whether
a given call fails. Returns none when a failing call hit log.Fatalln,
otherwise the registrations performed in order. -/
def addFiles (recursive : Bool) (addRecErr addErr : String → Bool) :
    List String → Option (List (AddMethod × String))
  | [] => some []
  | f :: fs =>
      if recursive then
        if addRecErr f then none
        else (addFiles recursive addRecErr addErr fs).map
          (fun r => (AddMethod.addRecursive, f) :: r)
      else
        if addErr f then none
        else (addFiles recursive addRecErr addErr fs).map
          (fun r => (AddMethod.add, f) :: r)

/-- The error oracle selected for one root by the recursive flag. -/
def addMethodErr (recursive : Bool) (addRecErr addErr : String → Bool)
    (f : String) : Bool :=
  if recursive then addRecErr f else addErr f

/-- Lines 78 to 84: when no positional arguments were given, watch the
current working directory, or die in log.Fatalln when os.Getwd fails;
none models the fatal exit. -/
def resolveFiles (args : List String) (getwd : Except String String) :
    Option (List String) :=
  if args.length = 0 then
    match getwd with
    | Except.error _ => none
    | Except.ok curDir => some (args ++ [curDir])
  else some args

/-- Synchronization actions of the signal-handler goroutine
(lines 188 to 194) and the final receive of main (line 218), listed in
the order forced by the channel operations: the goroutine receives the
signal, calls w.Close, blocks on the done channel (closed by the defer
of the event-reading goroutine when it returns), prints, closes the
closed channel; only then can the receive on closed in main complete. -/
inductive ShutdownStep where
  | recvSignal
  | closeWatcher
  | awaitDone
  | printWatcherClosed
  | closeClosedChan
  | mainRecvClosed
deriving DecidableEq, BEq

/-- The serialized shutdown order of lines 188 to 194 and line 218. -/
def signalShutdownTrace : List ShutdownStep :=
  [ShutdownStep.recvSignal, ShutdownStep.closeWatcher, ShutdownStep.awaitDone,
   ShutdownStep.printWatcherClosed, ShutdownStep.closeClosedChan,
   ShutdownStep.mainRecvClosed]

/-- The statements of main in program order (lines 62 to 218). -/
inductive MainStep where
  | flagParse
  | resolveRoots
  | splitCmd
  | newWatcher
  | configureIgnores
  | spawnEventLoop
  | registerRoots
  | printWatchCount
  | parseInterval
  | spawnSignalHandler
  | spawnStartCmd
  | watcherStart
  | awaitClosedChan
deriving DecidableEq, BEq

/-- Program order of the main function. -/
def mainTrace : List MainStep :=
  [MainStep.flagParse, MainStep.resolveRoots, MainStep.splitCmd,
   MainStep.newWatcher, MainStep.configureIgnores, MainStep.spawnEventLoop,
   MainStep.registerRoots, MainStep.printWatchCount, MainStep.parseInterval,
   MainStep.spawnSignalHandler, MainStep.spawnStartCmd, MainStep.watcherStart,
   MainStep.awaitClosedChan]

theorem runLoop_ne_closedReturn (cmd cmdName : String) (cmdArgs : List String)
    (stdinPipe keepalive : Bool) (oracle : Nat → RunRes) :
    ∀ ms : List Msg, Msg.closed ∉ ms →
      ∀ k, (runLoop cmd cmdName cmdArgs stdinPipe keepalive oracle k ms).2 ≠
        LoopExit.closedReturn := by
  intro ms
  induction ms with
  | nil => intro _ k; simp [runLoop]
  | cons m ms ih =>
      intro h k
      have hm : m ≠ Msg.closed := by
        intro hh
        exact h (hh ▸ List.mem_cons_self m ms)
      have hms : Msg.closed ∉ ms := fun hh => h (List.mem_cons_of_mem m hh)
      match m with
      | Msg.closed => exact absurd rfl hm
      | Msg.error WErr.watchedFileDeleted => simpa [runLoop] using ih hms k
      | Msg.error (WErr.other s) => simp [runLoop]
      | Msg.event d =>
          by_cases hc : cmd = ""
          · simpa [runLoop, hc] using ih hms k
          · cases ho : oracle k with
            | ok => simpa [runLoop, hc, ho] using ih hms (k + 1)
            | err ps =>
                by_cases hk : keepaliveBranch ps keepalive = true
                · simpa [runLoop, hc, ho, hk] using ih hms (k + 1)
                · simp [runLoop, hc, ho, hk]

/-- C1: for every error received on the Error channel, the CLI dies in
log.Fatalln unless the error is watcher.ErrWatchedFileDeleted, in which
case it prints the error and the loop continues with the remaining
messages. -/
theorem error_channel_fatal_unless_watchedFileDeleted
    (cmd cmdName : String) (cmdArgs : List String) (stdinPipe keepalive : Bool)
    (oracle : Nat → RunRes) (k : Nat) (s : String) (ms : List Msg) :
    runLoop cmd cmdName cmdArgs stdinPipe keepalive oracle k
        (Msg.error (WErr.other s) :: ms) = ([Eff.logFatal], LoopExit.fatal) ∧
    runLoop cmd cmdName cmdArgs stdinPipe keepalive oracle k
        (Msg.error WErr.watchedFileDeleted :: ms) =
      (Eff.printlnErr WErr.watchedFileDeleted ::
        (runLoop cmd cmdName cmdArgs stdinPipe keepalive oracle k ms).1,
       (runLoop cmd cmdName cmdArgs stdinPipe keepalive oracle k ms).2) := by
  constructor <;> simp [runLoop]

/-- C2: the event-reading loop returns exactly when it observes Closed,
reading nothing further, and never returns without observing Closed;
and in the shutdown synchronization order the signal handler calls
w.Close before awaiting the done channel of the event goroutine, which
happens before the closed channel is closed, which happens before the
final receive of main completes. -/
theorem shutdown_awaits_loop_and_loop_stops_on_closed
    (cmd cmdName : String) (cmdArgs : List String) (stdinPipe keepalive : Bool)
    (oracle : Nat → RunRes) (k : Nat) (ms : List Msg) (h : Msg.closed ∉ ms) :
    runLoop cmd cmdName cmdArgs stdinPipe keepalive oracle k (Msg.closed :: ms) =
      ([], LoopExit.closedReturn) ∧
    (runLoop cmd cmdName cmdArgs stdinPipe keepalive oracle k ms).2 ≠
      LoopExit.closedReturn ∧
    signalShutdownTrace.indexOf ShutdownStep.closeWatcher <
      signalShutdownTrace.indexOf ShutdownStep.awaitDone ∧
    signalShutdownTrace.indexOf ShutdownStep.awaitDone <
      signalShutdownTrace.indexOf ShutdownStep.closeClosedChan ∧
    signalShutdownTrace.indexOf ShutdownStep.closeClosedChan <
      signalShutdownTrace.indexOf ShutdownStep.mainRecvClosed := by
  refine ⟨by simp [runLoop],
    runLoop_ne_closedReturn cmd cmdName cmdArgs stdinPipe keepalive oracle ms h k,
    by decide, by decide, by decide⟩

theorem shutdown_awaits_loop_witness :
    runLoop "" "" [] false false (fun _ => RunRes.ok) 0
        (Msg.closed :: [Msg.event "E"]) = ([], LoopExit.closedReturn) ∧
    (runLoop "" "" [] false false (fun _ => RunRes.ok) 0 [Msg.event "E"]).2 ≠
      LoopExit.closedReturn ∧
    signalShutdownTrace.indexOf ShutdownStep.closeWatcher <
      signalShutdownTrace.indexOf ShutdownStep.awaitDone ∧
    signalShutdownTrace.indexOf ShutdownStep.awaitDone <
      signalShutdownTrace.indexOf ShutdownStep.closeClosedChan ∧
    signalShutdownTrace.indexOf ShutdownStep.closeClosedChan <
      signalShutdownTrace.indexOf ShutdownStep.mainRecvClosed :=
  shutdown_awaits_loop_and_loop_stops_on_closed "" "" [] false false
    (fun _ => RunRes.ok) 0 [Msg.event "E"] (by decide)

/-- C3: on a nonzero exit status of the per-event command (Run returns
an error, ProcessState present with Success false), the loop logs and
continues when keepalive is set, and dies in log.Fatalln when it is
not. -/
theorem keepalive_on_nonzero_exit
    (cmd cmdName : String) (cmdArgs : List String) (stdinPipe : Bool)
    (oracle : Nat → RunRes) (k : Nat) (d : String) (ms : List Msg)
    (hc : cmd ≠ "") (ho : oracle k = RunRes.err (some false)) :
    runLoop cmd cmdName cmdArgs stdinPipe true oracle k (Msg.event d :: ms) =
      (Eff.printEvent d ::
        Eff.runCmd ⟨cmdName, cmdArgs,
          if stdinPipe then Stdin.pipeStr d else Stdin.osStdin⟩ ::
        Eff.logPrintlnErr ::
        (runLoop cmd cmdName cmdArgs stdinPipe true oracle (k + 1) ms).1,
       (runLoop cmd cmdName cmdArgs stdinPipe true oracle (k + 1) ms).2) ∧
    runLoop cmd cmdName cmdArgs stdinPipe false oracle k (Msg.event d :: ms) =
      ([Eff.printEvent d,
        Eff.runCmd ⟨cmdName, cmdArgs,
          if stdinPipe then Stdin.pipeStr d else Stdin.osStdin⟩,
        Eff.logFatal], LoopExit.fatal) := by
  constructor <;> simp [runLoop, hc, ho, keepaliveBranch]

theorem keepalive_on_nonzero_exit_witness :
    runLoop "sh" "sh" ["-c", "false"] false true
        (fun _ => RunRes.err (some false)) 0 [Msg.event "E"] =
      (Eff.printEvent "E" ::
        Eff.runCmd ⟨"sh", ["-c", "false"], Stdin.osStdin⟩ ::
        Eff.logPrintlnErr ::
        (runLoop "sh" "sh" ["-c", "false"] false true
          (fun _ => RunRes.err (some false)) 1 []).1,
       (runLoop "sh" "sh" ["-c", "false"] false true
          (fun _ => RunRes.err (some false)) 1 []).2) ∧
    runLoop "sh" "sh" ["-c", "false"] false false
        (fun _ => RunRes.err (some false)) 0 [Msg.event "E"] =
      ([Eff.printEvent "E",
        Eff.runCmd ⟨"sh", ["-c", "false"], Stdin.osStdin⟩,
        Eff.logFatal], LoopExit.fatal) :=
  keepalive_on_nonzero_exit "sh" "sh" ["-c", "false"] false
    (fun _ => RunRes.err (some false)) 0 "E" [] (by decide) rfl

/-- C9: with keepalive set, a command failure with no ProcessState at
all (the command could not be started) is likewise logged and the loop
continues. -/
theorem keepalive_on_nil_process_state
    (cmd cmdName : String) (cmdArgs : List String) (stdinPipe : Bool)
    (oracle : Nat → RunRes) (k : Nat) (d : String) (ms : List Msg)
    (hc : cmd ≠ "") (ho : oracle k = RunRes.err none) :
    runLoop cmd cmdName cmdArgs stdinPipe true oracle k (Msg.event d :: ms) =
      (Eff.printEvent d ::
        Eff.runCmd ⟨cmdName, cmdArgs,
          if stdinPipe then Stdin.pipeStr d else Stdin.osStdin⟩ ::
        Eff.logPrintlnErr ::
        (runLoop cmd cmdName cmdArgs stdinPipe true oracle (k + 1) ms).1,
       (runLoop cmd cmdName cmdArgs stdinPipe true oracle (k + 1) ms).2) := by
  simp [runLoop, hc, ho, keepaliveBranch]

theorem keepalive_on_nil_process_state_witness :
    runLoop "nosuch" "nosuch" [] false true
        (fun _ => RunRes.err none) 0 [Msg.event "E"] =
      (Eff.printEvent "E" ::
        Eff.runCmd ⟨"nosuch", [], Stdin.osStdin⟩ ::
        Eff.logPrintlnErr ::
        (runLoop "nosuch" "nosuch" [] false true
          (fun _ => RunRes.err none) 1 []).1,
       (runLoop "nosuch" "nosuch" [] false true
          (fun _ => RunRes.err none) 1 []).2) :=
  keepalive_on_nil_process_state "nosuch" "nosuch" [] false
    (fun _ => RunRes.err none) 0 "E" [] (by decide) rfl

/-- C5: every event received with a command configured leads to exactly
one spawned command, whose stdin is the event text when the pipe flag
is set and the process stdin otherwise. -/
theorem event_runs_command_with_selected_stdin
    (cmd cmdName : String) (cmdArgs : List String) (stdinPipe keepalive : Bool)
    (oracle : Nat → RunRes) (k : Nat) (d : String) (ms : List Msg)
    (hc : cmd ≠ "") :
    (∃ tail,
      (runLoop cmd cmdName cmdArgs stdinPipe keepalive oracle k
          (Msg.event d :: ms)).1 =
        Eff.printEvent d ::
        Eff.runCmd ⟨cmdName, cmdArgs,
          if stdinPipe then Stdin.pipeStr d else Stdin.osStdin⟩ :: tail) ∧
    countRuns ((runLoop cmd cmdName cmdArgs stdinPipe keepalive oracle k
        [Msg.event d]).1) = 1 := by
  constructor
  · cases ho : oracle k with
    | ok =>
        refine ⟨(runLoop cmd cmdName cmdArgs stdinPipe keepalive oracle
          (k + 1) ms).1, ?_⟩
        simp [runLoop, hc, ho]
    | err ps =>
        by_cases hk : keepaliveBranch ps keepalive = true
        · refine ⟨Eff.logPrintlnErr :: (runLoop cmd cmdName cmdArgs stdinPipe
            keepalive oracle (k + 1) ms).1, ?_⟩
          simp [runLoop, hc, ho, hk]
        · refine ⟨[Eff.logFatal], ?_⟩
          simp [runLoop, hc, ho, hk]
  · cases ho : oracle k with
    | ok => simp [runLoop, hc, ho, countRuns, isRunEff]
    | err ps =>
        by_cases hk : keepaliveBranch ps keepalive = true
        · simp [runLoop, hc, ho, hk, countRuns, isRunEff]
        · simp [runLoop, hc, ho, hk, countRuns, isRunEff]

theorem event_runs_command_witness :
    (∃ tail,
      (runLoop "cat" "cat" [] true false (fun _ => RunRes.ok) 0
          (Msg.event "E" :: [])).1 =
        Eff.printEvent "E" ::
        Eff.runCmd ⟨"cat", [],
          if true then Stdin.pipeStr "E" else Stdin.osStdin⟩ :: tail) ∧
    countRuns ((runLoop "cat" "cat" [] true false (fun _ => RunRes.ok) 0
        [Msg.event "E"]).1) = 1 :=
  event_runs_command_with_selected_stdin "cat" "cat" [] true false
    (fun _ => RunRes.ok) 0 "E" [] (by decide)

/-- C4: with cmd set and the startcmd flag set, the startup goroutine
spawns the command exactly once, reading the process stdin, whatever
the outcome of the run; the goroutine is spawned before w.Start in
program order, so before event-driven invocations can begin; with the
startcmd flag unset it spawns nothing. -/
theorem startcmd_runs_once_before_watcher_start
    (cmd cmdName : String) (cmdArgs : List String) (keepalive : Bool)
    (res : RunRes) (hc : cmd ≠ "") :
    countRuns (startCmdEffects cmd true keepalive cmdName cmdArgs res).1 = 1 ∧
    (startCmdEffects cmd true keepalive cmdName cmdArgs res).1.head? =
      some (Eff.runCmd ⟨cmdName, cmdArgs, Stdin.osStdin⟩) ∧
    mainTrace.indexOf MainStep.spawnStartCmd <
      mainTrace.indexOf MainStep.watcherStart ∧
    (∀ res2, startCmdEffects cmd false keepalive cmdName cmdArgs res2 =
      ([], false)) := by
  refine ⟨?_, ?_, by decide, fun res2 => by simp [startCmdEffects, hc]⟩
  · cases res with
    | ok => simp [startCmdEffects, hc, countRuns, isRunEff]
    | err ps =>
        by_cases hk : keepaliveBranch ps keepalive = true
        · simp [startCmdEffects, hc, hk, countRuns, isRunEff]
        · simp [startCmdEffects, hc, hk, countRuns, isRunEff]
  · cases res with
    | ok => simp [startCmdEffects, hc]
    | err ps =>
        by_cases hk : keepaliveBranch ps keepalive = true
        · simp [startCmdEffects, hc, hk]
        · simp [startCmdEffects, hc, hk]

theorem startcmd_runs_once_witness :
    countRuns (startCmdEffects "make" true false "make" [] RunRes.ok).1 = 1 ∧
    (startCmdEffects "make" true false "make" [] RunRes.ok).1.head? =
      some (Eff.runCmd ⟨"make", [], Stdin.osStdin⟩) ∧
    mainTrace.indexOf MainStep.spawnStartCmd <
      mainTrace.indexOf MainStep.watcherStart ∧
    (∀ res2, startCmdEffects "make" false false "make" [] res2 =
      ([], false)) :=
  startcmd_runs_once_before_watcher_start "make" "make" [] false RunRes.ok
    (by decide)

theorem processIgnores_eq_some (ignoreErr : String → Bool) :
    ∀ l : List String,
      (∀ p ∈ l, trimSpace p ≠ "" → ignoreErr (trimSpace p) = false) →
      processIgnores ignoreErr l =
        some ((l.map trimSpace).filter (fun t => !(t == ""))) := by
  intro l
  induction l with
  | nil => intro _; simp [processIgnores]
  | cons p ps ih =>
      intro h
      have hps := fun q hq hq2 => h q (List.mem_cons_of_mem p hq) hq2
      by_cases ht : trimSpace p = ""
      · simp [processIgnores, ht, ih hps]
      · have hp := h p (List.mem_cons_self p ps) ht
        simp [processIgnores, ht, hp, ih hps]

theorem processIgnores_eq_none_iff (ignoreErr : String → Bool) :
    ∀ l : List String,
      (processIgnores ignoreErr l = none ↔
        ∃ p ∈ l, trimSpace p ≠ "" ∧ ignoreErr (trimSpace p) = true) := by
  intro l
  induction l with
  | nil => simp [processIgnores]
  | cons p ps ih =>
      by_cases ht : trimSpace p = ""
      · simp [processIgnores, ht, ih]
      · by_cases ho : ignoreErr (trimSpace p) = true
        · simp [processIgnores, ht, ho]
        · simp [processIgnores, ht, ho, ih, Option.map_eq_none']

/-- C6: every entry of the comma-separated ignore flag that is
non-empty after trimming is passed to w.Ignore in order (when no call
fails), and the CLI hits log.Fatalln exactly when some such entry makes
the Ignore call fail. -/
theorem ignore_flag_entries_passed_and_fatal_on_error
    (ignoreErr : String → Bool) (ignore : String) :
    ((∀ p ∈ ignore.splitOn ",", trimSpace p ≠ "" →
        ignoreErr (trimSpace p) = false) →
      processIgnores ignoreErr (ignore.splitOn ",") =
        some (ignoreEntries ignore)) ∧
    (processIgnores ignoreErr (ignore.splitOn ",") = none ↔
      ∃ p ∈ ignore.splitOn ",", trimSpace p ≠ "" ∧
        ignoreErr (trimSpace p) = true) :=
  ⟨fun h => by
      simpa [ignoreEntries] using
        processIgnores_eq_some ignoreErr (ignore.splitOn ",") h,
   processIgnores_eq_none_iff ignoreErr (ignore.splitOn ",")⟩

theorem ignore_flag_witness :
    processIgnores (fun _ => false) ("a, ,b".splitOn ",") =
      some (ignoreEntries "a, ,b") :=
  (ignore_flag_entries_passed_and_fatal_on_error (fun _ => false) "a, ,b").1
    (fun _ _ _ => rfl)

theorem addFiles_eq_some (recursive : Bool) (addRecErr addErr : String → Bool) :
    ∀ files : List String,
      (∀ f ∈ files, addMethodErr recursive addRecErr addErr f = false) →
      addFiles recursive addRecErr addErr files = some (files.map (fun f =>
        ((if recursive then AddMethod.addRecursive else AddMethod.add), f))) := by
  intro files
  induction files with
  | nil => intro _; cases recursive <;> simp [addFiles]
  | cons f fs ih =>
      intro h
      have hf := h f (List.mem_cons_self f fs)
      have hfs := fun g hg => h g (List.mem_cons_of_mem f hg)
      cases recursive
      · simp [addMethodErr] at hf
        simp [addFiles, hf, ih hfs]
      · simp [addMethodErr] at hf
        simp [addFiles, hf, ih hfs]

theorem addFiles_eq_none_iff (recursive : Bool) (addRecErr addErr : String → Bool) :
    ∀ files : List String,
      (addFiles recursive addRecErr addErr files = none ↔
        ∃ f ∈ files, addMethodErr recursive addRecErr addErr f = true) := by
  intro files
  induction files with
  | nil => cases recursive <;> simp [addFiles]
  | cons f fs ih =>
      cases recursive
      · by_cases hf : addErr f = true
        · simp [addFiles, hf, addMethodErr]
        · simp [addFiles, hf, addMethodErr, ih, Option.map_eq_none']
      · by_cases hf : addRecErr f = true
        · simp [addFiles, hf, addMethodErr]
        · simp [addFiles, hf, addMethodErr, ih, Option.map_eq_none']

/-- C7: every positional root is registered through w.AddRecursive when
the recursive flag is set and through w.Add otherwise (when no call
fails), and the CLI hits log.Fatalln exactly when some registration
call fails. -/
theorem roots_registered_via_selected_method
    (recursive : Bool) (addRecErr addErr : String → Bool)
    (files : List String) :
    ((∀ f ∈ files, addMethodErr recursive addRecErr addErr f = false) →
      addFiles recursive addRecErr addErr files = some (files.map (fun f =>
        ((if recursive then AddMethod.addRecursive else AddMethod.add), f)))) ∧
    (addFiles recursive addRecErr addErr files = none ↔
      ∃ f ∈ files, addMethodErr recursive addRecErr addErr f = true) :=
  ⟨addFiles_eq_some recursive addRecErr addErr files,
   addFiles_eq_none_iff recursive addRecErr addErr files⟩

theorem roots_registered_witness :
    addFiles true (fun _ => false) (fun _ => true) ["a", "b"] =
      some (["a", "b"].map (fun f =>
        ((if true then AddMethod.addRecursive else AddMethod.add), f))) :=
  (roots_registered_via_selected_method true (fun _ => false) (fun _ => true)
    ["a", "b"]).1 (fun _ _ => rfl)

/-- C10: with no positional arguments the CLI watches exactly one root,
the current working directory, dies in log.Fatalln when os.Getwd fails,
and the default root goes through the same Add or AddRecursive
selection as explicit arguments, which are kept unchanged. -/
theorem default_root_is_current_directory
    (d e : String) (recursive : Bool) (addRecErr addErr : String → Bool) :
    resolveFiles [] (Except.ok d) = some [d] ∧
    resolveFiles [] (Except.error e) = none ∧
    (addMethodErr recursive addRecErr addErr d = false →
      addFiles recursive addRecErr addErr [d] = some
        [((if recursive then AddMethod.addRecursive else AddMethod.add), d)]) ∧
    (addMethodErr recursive addRecErr addErr d = true →
      addFiles recursive addRecErr addErr [d] = none) ∧
    (∀ args : List String, args ≠ [] →
      resolveFiles args (Except.ok d) = some args) := by
  refine ⟨by simp [resolveFiles], by simp [resolveFiles], ?_, ?_, ?_⟩
  · intro h
    have := addFiles_eq_some recursive addRecErr addErr [d]
      (fun f hf => by rcases List.mem_singleton.mp hf with rfl; exact h)
    simpa using this
  · intro h
    exact (addFiles_eq_none_iff recursive addRecErr addErr [d]).mpr
      ⟨d, List.mem_singleton.mpr rfl, h⟩
  · intro args hargs
    cases args with
    | nil => exact absurd rfl hargs
    | cons a as => simp [resolveFiles]

theorem default_root_witness :
    resolveFiles [] (Except.ok "/w") = some ["/w"] ∧
    resolveFiles [] (Except.error "getwd failed") = none ∧
    addFiles true (fun _ => false) (fun _ => true) ["/w"] = some
      [((if true then AddMethod.addRecursive else AddMethod.add), "/w")] :=
  ⟨(default_root_is_current_directory "/w" "getwd failed" true
      (fun _ => false) (fun _ => true)).1,
   (default_root_is_current_directory "/w" "getwd failed" true
      (fun _ => false) (fun _ => true)).2.1,
   (default_root_is_current_directory "/w" "getwd failed" true
      (fun _ => false) (fun _ => true)).2.2.1 rfl⟩

/-- C8: when the cmd flag value is non-empty the CLI reads element 0 of
its whitespace split, and that access is in bounds exactly when the
value contains at least one non-whitespace character. -/
theorem cmd_split_head_access_in_bounds (s : String) (h : s ≠ "") :
    ((cmdSplit s)[0]?).isSome = true ↔ ∃ c ∈ s.data, isSpace c = false := by
  constructor
  · intro hs
    by_contra hc
    push_neg at hc
    simp only [Bool.not_eq_false] at hc
    have hnil : cmdSplit s = [] := (cmdSplit_eq_nil s).mpr hc
    rw [hnil] at hs
    simp at hs
  · rintro ⟨c, hcm, hcf⟩
    cases hl : cmdSplit s with
    | nil =>
        have := (cmdSplit_eq_nil s).mp hl c hcm
        rw [this] at hcf
        cases hcf
    | cons a l => simp [hl]

theorem cmd_split_head_witness :
    ("go build" : String) ≠ "" ∧ ((cmdSplit "go build")[0]?).isSome = true :=
  ⟨by decide,
   (cmd_split_head_access_in_bounds "go build" (by decide)).mpr
     ⟨'g', by decide, by decide⟩⟩
